import Mathlib

/-!
Verification development for the `gpypi2` ebuild-naming engine
(`src/gpypi2/enamer.py`): a shallow embedding of the name/version
normalization functions (`Enamer.strip_ext`, `Enamer.get_filename`,
`Enamer.is_valid_uri`, `Enamer.split_uri`, `Enamer._is_good_filename`,
`Enamer.parse_pv`, `Enamer.parse_pn`, `Enamer.get_vars` and their helpers),
together with proofs about them.

Conventions of the embedding:
* Python strings are `String`; most computations work on `List Char`
  (`String.data`) so that everything reduces in the kernel.
* The Python regular expressions used by `parse_pv` are hand-translated
  into explicit backtracking matchers with the exact semantics of the
  CPython `re` engine on those patterns (lazy `(.*?)` prefix = shortest
  match first; greedy character classes; ordered alternation).
* The two external `portage` collaborators (`pkgsplit`,
  `portage_dep.isvalidatom`) and the stdlib `urlparse` are not part of the
  repository; they are modelled from the specification's boundary
  contracts and marked as such in their doc comments.
* Exceptions are modelled with `Except`: `get_vars` returns
  `Except String PackageVars`, the error value carrying the candidate
  atom embedded in the `GPyPiInvalidAtom` message.
-/

/-- Characters treated as separators by the version regexes:
the character class `[\._-]` (a literal dot inside a class). -/
def isSep (c : Char) : Bool := c == '.' || c == '_' || c == '-'

/-- Lower-casing of a whole `List Char`, matching Python `str.lower`
on ASCII data. -/
def lowerL (l : List Char) : List Char := l.map Char.toLower

/-- Case-insensitive "starts with": the word `w` (given lower-case) is a
prefix of `t` up to ASCII case, as matched by an `re.I` literal. -/
def ciStarts (t w : List Char) : Bool := lowerL (t.take w.length) == w

/-- Python `str.islower` for byte strings: at least one cased character
and no upper-case cased character (ASCII letters are the cased
characters). `"123".islower()` is `False` because it has no cased
character at all. -/
def pyIslower (l : List Char) : Bool :=
  l.any Char.isLower && l.all (fun c => !c.isUpper)

/-- Python `str.split(sep)` for a one-character separator: splits at every
occurrence, keeping empty groups (`"a--b".split("-") == ["a","","b"]`). -/
def splitOnChar (c : Char) : List Char → List (List Char)
  | [] => [[]]
  | x :: xs =>
    match splitOnChar c xs with
    | [] => [[]]
    | g :: gs => if x == c then [] :: g :: gs else (x :: g) :: gs

/-- Python `str.replace(pat, repl)` (all non-overlapping occurrences, left
to right) on `List Char`, with explicit fuel; an empty pattern leaves the
input unchanged (that case is never reached by the embedded code paths,
which always substitute non-empty tokens). -/
def replaceFuel (pat repl : List Char) : Nat → List Char → List Char
  | 0, s => s
  | _ + 1, [] => []
  | fuel + 1, c :: cs =>
    if pat ≠ [] ∧ pat.isPrefixOf (c :: cs) then
      repl ++ replaceFuel pat repl fuel ((c :: cs).drop pat.length)
    else
      c :: replaceFuel pat repl fuel cs

/-- String-level wrapper for `replaceFuel`; models Python `str.replace`. -/
def pyReplace (s pat repl : String) : String :=
  String.mk (replaceFuel pat.data repl.data s.data.length s.data)

/-- Python `s.endswith(e)` on strings. -/
def pyEndsWith (s e : String) : Bool := e.data.isSuffixOf s.data

/-- `Enamer.strip_ext` (enamer.py lines 64-87): strip the first matching
extension from the ordered literal list
`[".zip", ".tgz", ".tar.gz", ".tar.bz2", ".tbz2"]`; return the path
unchanged when none matches. -/
def valid_extensions : List String := [".zip", ".tgz", ".tar.gz", ".tar.bz2", ".tbz2"]

/-- Body of `Enamer.strip_ext`: the first `for` iteration whose extension
matches returns `path[:-len(ext)]`. -/
def strip_ext (path : String) : String :=
  match valid_extensions.find? (fun e => pyEndsWith path e) with
  | some e => String.mk (path.data.take (path.data.length - e.data.length))
  | none => path

/-- Matcher result for a 3-group regex of shape `(.*?)(...)(...)$`:
`(group1, group2, group3)`, each a slice of the input. -/
abbrev Groups := List Char × List Char × List Char

/-- Result type of the hand-translated regex matchers. -/
abbrev Matcher := List Char → Option Groups

/-- Tail piece `[\._-]*[0-9]*$` of the version regexes: the remainder must
be a run of separators followed by a run of digits (either may be empty).
Greedy separators first; a shorter separator run can never rescue the
match because the following character would be a separator, which
`[0-9]*` cannot consume and which prevents reaching `$`. Returns the
(separator-run, digit-run) split the engine commits to. -/
def sepsDigits (t : List Char) : Option (List Char × List Char) :=
  let s := t.takeWhile isSep
  let d := t.dropWhile isSep
  if d.all Char.isDigit then some (s, d) else none

/-- One alternative of the revision marker `(?:r|patch|p)` (case
insensitive) followed by `[\._-]*[0-9]*$`: on success returns
(marker-and-trailing-separators slice, digit group). -/
def tryRevWord (w rest : List Char) : Option (List Char × List Char) :=
  if ciStarts rest w then
    match sepsDigits (rest.drop w.length) with
    | some (s2, d) => some (rest.take w.length ++ s2, d)
    | none => none
  else none

/-- Suffix matcher for `([\._-]*(?:r|patch|p)[\._-]*)([0-9]*)$` at a fixed
start position (enamer.py line 226-227). The leading `[\._-]*` is taken
greedily; a shorter run would leave a separator where the marker must
start, so only the maximal run can succeed. Alternation order `r`,
`patch`, `p` is the engine's. -/
def revTail (t : List Char) : Option (List Char × List Char) :=
  let run := t.takeWhile isSep
  let rest := t.dropWhile isSep
  match tryRevWord ['r'] rest with
  | some (g2, g3) => some (run ++ g2, g3)
  | none =>
    match tryRevWord ['p', 'a', 't', 'c', 'h'] rest with
    | some (g2, g3) => some (run ++ g2, g3)
    | none =>
      match tryRevWord ['p'] rest with
      | some (g2, g3) => some (run ++ g2, g3)
      | none => none

/-- Lazy-group-1 search engine shared by the version regexes: the pattern
`(.*?)(tail)$` matched by `re.search`/`re.match` commits to the shortest
group 1, i.e. the first start position (scanned left to right) at which
the tail matcher succeeds. -/
def lazySearch (tl : List Char → Option (List Char × List Char)) : List Char → Option Groups
  | [] =>
    match tl [] with
    | some (g2, g3) => some ([], g2, g3)
    | none => none
  | c :: cs =>
    match tl (c :: cs) with
    | some (g2, g3) => some ([], g2, g3)
    | none =>
      match lazySearch tl cs with
      | some (g1, g2, g3) => some (c :: g1, g2, g3)
      | none => none

/-- `revision_suffixes.search(up_pv)` (enamer.py lines 226-227):
`(.*?)([\._-]*(?:r|patch|p)[\._-]*)([0-9]*)$` with `re.I`. -/
def revSearch (t : List Char) : Option Groups := lazySearch revTail t

/-- One word alternative of a ladder regex
`([\._-]*(?:w1|w2)[\._-]*)([0-9]*)$` (or without the trailing separator
class when `sepsAfter` is false, as in `([\._-]*b)([0-9]*)$`). -/
def tryLadWord (sepsAfter : Bool) (w rest : List Char) : Option (List Char × List Char) :=
  if ciStarts rest w then
    let r2 := rest.drop w.length
    if sepsAfter then
      match sepsDigits r2 with
      | some (s2, d) => some (rest.take w.length ++ s2, d)
      | none => none
    else
      if r2.all Char.isDigit then some (rest.take w.length, r2) else none
  else none

/-- Ordered word alternation of a ladder regex at a fixed position. -/
def wordTailCore (sepsAfter : Bool) : List (List Char) → List Char → Option (List Char × List Char)
  | [], _ => none
  | w :: ws, rest =>
    match tryLadWord sepsAfter w rest with
    | some g => some g
    | none => wordTailCore sepsAfter ws rest

/-- Suffix matcher `([\._-]*(?:words)[\._-]*)([0-9]*)$` at a fixed start
position; the leading separator run is maximal for the same reason as in
`revTail` (the words start with letters). -/
def wordTail (sepsAfter : Bool) (ws : List (List Char)) (t : List Char) :
    Option (List Char × List Char) :=
  let run := t.takeWhile isSep
  let rest := t.dropWhile isSep
  match wordTailCore sepsAfter ws rest with
  | some (g2, g3) => some (run ++ g2, g3)
  | none => none

/-- Suffix matcher for `([\._-]*dev[\._-]*r?)([0-9]+)$` (the first `_pre`
variant, enamer.py line 230): optional `r` taken greedily, digit group
must be non-empty. -/
def devTail (t : List Char) : Option (List Char × List Char) :=
  let run := t.takeWhile isSep
  let rest := t.dropWhile isSep
  if ciStarts rest ['d', 'e', 'v'] then
    let r2 := rest.drop 3
    let s2 := r2.takeWhile isSep
    let r3 := r2.dropWhile isSep
    if ciStarts r3 ['r'] && (r3.drop 1).all Char.isDigit && !(r3.drop 1).isEmpty then
      some (run ++ rest.take 3 ++ s2 ++ r3.take 1, r3.drop 1)
    else if r3.all Char.isDigit && !r3.isEmpty then
      some (run ++ rest.take 3 ++ s2, r3)
    else none
  else none

/-- Tail of the greedy-group-1 variants `(.*[^a-z])(w...)(...)$`
(enamer.py lines 236, 241, 246): the single marker character, optionally
followed by separators (rcV3 only), then digits. -/
def greedyTail (w : Char) (sepsAfter digitsNonempty : Bool) (rest : List Char) :
    Option (List Char × List Char) :=
  if ciStarts rest [w] then
    let r2 := rest.drop 1
    if sepsAfter then
      match sepsDigits r2 with
      | some (s2, d) =>
        if digitsNonempty && d.isEmpty then none else some (rest.take 1 ++ s2, d)
      | none => none
    else
      if r2.all Char.isDigit && !(digitsNonempty && r2.isEmpty) then
        some (rest.take 1, r2)
      else none
  else none

/-- Matcher for `(.*[^a-z])(w...)(...)$`: greedy `.*` means the longest
group 1 is tried first; group 1 is non-empty and its last character is
not a letter (`[^a-z]` under `re.I` excludes both cases). -/
def greedySearch (w : Char) (sepsAfter digitsNonempty : Bool) (t : List Char) : Option Groups :=
  (List.range t.length).reverse.findSome? (fun i =>
    match (t.take (i + 1)).getLast? with
    | some c =>
      if !c.isAlpha then
        match greedyTail w sepsAfter digitsNonempty (t.drop (i + 1)) with
        | some (g2, g3) => some (t.take (i + 1), g2, g3)
        | none => none
      else none
    | none => none)

/-- First `_pre` variant `(.*?)([\._-]*dev[\._-]*r?)([0-9]+)$`. -/
def preV1 : Matcher := lazySearch devTail

/-- Second `_pre` variant `(.*?)([\._-]*(?:pre|preview)[\._-]*)([0-9]*)$`. -/
def preV2 : Matcher := lazySearch (wordTail true ["pre".data, "preview".data])

/-- First `_alpha` variant `(.*?)([\._-]*(?:alpha|test)[\._-]*)([0-9]*)$`. -/
def alphaV1 : Matcher := lazySearch (wordTail true ["alpha".data, "test".data])

/-- Second `_alpha` variant `(.*?)([\._-]*a[\._-]*)([0-9]*)$`. -/
def alphaV2 : Matcher := lazySearch (wordTail true ["a".data])

/-- Third `_alpha` variant `(.*[^a-z])(a)([0-9]*)$`. -/
def alphaV3 : Matcher := greedySearch 'a' false false

/-- First `_beta` variant `(.*?)([\._-]*beta[\._-]*)([0-9]*)$`. -/
def betaV1 : Matcher := lazySearch (wordTail true ["beta".data])

/-- Second `_beta` variant `(.*?)([\._-]*b)([0-9]*)$`. -/
def betaV2 : Matcher := lazySearch (wordTail false ["b".data])

/-- Third `_beta` variant `(.*[^a-z])(b)([0-9]*)$`. -/
def betaV3 : Matcher := greedySearch 'b' false false

/-- First `_rc` variant `(.*?)([\._-]*rc[\._-]*)([0-9]*)$`. -/
def rcV1 : Matcher := lazySearch (wordTail true ["rc".data])

/-- Second `_rc` variant `(.*?)([\._-]*c[\._-]*)([0-9]*)$`. -/
def rcV2 : Matcher := lazySearch (wordTail true ["c".data])

/-- Third `_rc` variant `(.*[^a-z])(c[\._-]*)([0-9]+)$`. -/
def rcV3 : Matcher := greedySearch 'c' true true

/-- First successful matcher in a variant list (the inner `for` loop with
`break` at enamer.py lines 269-275). -/
def firstMatch : List Matcher → List Char → Option Groups
  | [], _ => none
  | m :: ms, v =>
    match m v with
    | some g => some g
    | none => firstMatch ms v

/-- Outer loop over suffix kinds (enamer.py lines 266-275): the first kind
whose variant list matches wins; `rs_match` makes the outer loop break
after a success. -/
def classifyFrom : List (String × List Matcher) → List Char → Option (String × Groups)
  | [], _ => none
  | (k, ms) :: rest, v =>
    match firstMatch ms v with
    | some g => some (k, g)
    | none => classifyFrom rest v

/-- The `suf_matches` table (enamer.py lines 228-248) in the order the
source actually iterates it. The source stores the variants in a Python
dict literal keyed by `_pre`, `_alpha`, `_beta`, `_rc` and iterates
`suf_matches.keys()`; under CPython 2.7 on 64-bit Linux (the interpreter
this Python-2 code runs on, hash randomization off by default) the four
keys hash to slots 0, 5, 6, 7 of the 8-slot table (`hash('_beta') & 7 = 0`,
`hash('_rc') & 7 = 5`, `hash('_pre') & 7 = 6`, `hash('_alpha') & 7 = 7`,
no collisions), so the iteration order is `_beta`, `_rc`, `_pre`,
`_alpha`. -/
def sufKinds : List (String × List Matcher) :=
  [("_beta", [betaV1, betaV2, betaV3]),
   ("_rc", [rcV1, rcV2, rcV3]),
   ("_pre", [preV1, preV2]),
   ("_alpha", [alphaV1, alphaV2, alphaV3])]

/-- The whole suffix-ladder classification of enamer.py lines 266-275:
returns the portage suffix kind together with the winning regex's three
groups. -/
def ladderClassify (v : List Char) : Option (String × Groups) := classifyFrom sufKinds v

/-- Words of the `bad_suffixes` regex
`((?:[._-]*)(?:dev|devel|final|stable|snapshot)$)` (enamer.py lines
224-225), all lower-case for the `re.I` comparison. -/
def badWords : List (List Char) := ["dev", "devel", "final", "stable", "snapshot"].map String.data

/-- `bad_suffixes` at a fixed start position: optional separators then one
of the words, which must reach the end of the string. -/
def badTail (t : List Char) : Option (List Char) :=
  let run := t.takeWhile isSep
  let rest := t.dropWhile isSep
  if badWords.any (fun w => lowerL rest == w) then some (run ++ rest) else none

/-- `bad_suffixes.search(up_pv)`: leftmost start position wins; returns
the whole matched suffix (group 1 of the regex). -/
def badSearch : List Char → Option (List Char)
  | [] => badTail []
  | c :: cs =>
    match badTail (c :: cs) with
    | some g => some g
    | none => badSearch cs

/-- `Enamer.parse_pn` (enamer.py lines 299-343). Converts a name to its
canonical lower-case, dash-separated form, appending the inverse
substitution rules to `my_pn` (case rule only when the list is empty,
then the dot rule, then the space rule). -/
def parse_pn (pn : String) (my_pn : List String) : String × List String :=
  let a :=
    if !pyIslower pn.data then
      (String.mk (lowerL pn.data), if my_pn.isEmpty then my_pn ++ [pn] else my_pn)
    else (pn, my_pn)
  let b :=
    if a.1.data.contains '.' then (pyReplace a.1 "." "-", a.2 ++ ["$\x7bPN/-/.\x7d"])
    else a
  let c :=
    if b.1.data.contains ' ' then (pyReplace b.1 " " "-", b.2 ++ ["$\x7bPN/-/ \x7d"])
    else b
  c

/-- `Enamer.parse_pv` (enamer.py lines 164-297). Step 1: revision-suffix
extraction (lines 255-264); step 2: suffix-ladder classification, else
bad-suffix stripping (lines 266-291); then the additional revision
component is appended (line 293) and the name goes through `parse_pn`
(line 296). Returns `(pn, pv, my_pn, my_pv)`. -/
def parse_pv (up_pn up_pv pn pv : String) (my_pn my_pv : List String) :
    String × String × List String × List String :=
  let st :=
    match revSearch up_pv.data with
    | some (g1, g2, g3) =>
      (String.mk g1, String.mk g1, "." ++ String.mk g3,
       my_pv ++ ["$\x7bPV: -" ++ toString (1 + g3.length) ++ "\x7d" ++ String.mk g2 ++ String.mk g3])
    | none => (pv, up_pv, "", my_pv)
  let st2 :=
    match ladderClassify st.2.1.data with
    | some (suf, g1, g2, g3) =>
      (String.mk g1 ++ suf ++ String.mk g3,
       st.2.2.2 ++ ["$\x7bPV/" ++ suf ++ "/" ++ String.mk g2 ++ "\x7d"])
    | none =>
      match badSearch st.2.1.data with
      | some sfx =>
        (String.mk (st.2.1.data.take (st.2.1.data.length - sfx.length)),
         st.2.2.2 ++ ["${PV}" ++ String.mk sfx])
      | none => (st.1, st.2.2.2)
  let pr := parse_pn up_pn my_pn
  (pr.1, st2.1 ++ st.2.2.1, pr.2, st2.2)

/-- Python prefix test (`str.startswith`) on the underlying characters. -/
def pyStarts (s pre : String) : Bool := pre.data.isPrefixOf s.data

/-- Modelled from the spec: URI decomposition (spec 4.1). Splits a
hierarchical URI at the first `://`, returning the scheme part and what
follows; `none` when the URI has no `://` (the spec lets malformed URIs
degrade to partial values). Stands in for the stdlib `urlparse`, which is
not part of this repository. -/
def splitMarker : List Char → Option (List Char × List Char)
  | [] => none
  | c :: cs =>
    if c == ':' && ['/', '/'].isPrefixOf cs then some ([], cs.drop 2)
    else
      match splitMarker cs with
      | some (pre, post) => some (c :: pre, post)
      | none => none

/-- Modelled from the spec: the path component of a URI (spec 4.1 "take
the path component of the URI"): everything after `scheme://netloc`, with
the fragment (after `#`), the query (after `?`) and parameters (after
`;`) removed; the whole string when there is no `://`. -/
def uriPath (uri : String) : String :=
  let l := ((uri.data.takeWhile (· != '#')).takeWhile (· != '?')).takeWhile (· != ';')
  match splitMarker l with
  | some (_, post) => String.mk (post.dropWhile (· != '/'))
  | none => String.mk l

/-- Modelled from the spec: `sanitize(uri)` (spec 4.1) keeps
scheme/host/path only, dropping parameters, query and fragment; embeds
`Enamer.sanitize_uri` (enamer.py lines 345-362). -/
def sanitize_uri (uri : String) : String :=
  let l := ((uri.data.takeWhile (· != '#')).takeWhile (· != '?')).takeWhile (· != ';')
  match splitMarker l with
  | some (scheme, post) =>
    String.mk (scheme ++ [':', '/', '/'] ++ post.takeWhile (· != '/') ++
      post.dropWhile (· != '/'))
  | none => String.mk l

/-- `Enamer.get_filename` (enamer.py lines 44-62): last `/`-separated
segment of the URI's path, extensions stripped. -/
def get_filename (uri : String) : String :=
  strip_ext (String.mk ((splitOnChar '/' (uriPath uri).data).getLastD []))

/-- Run of one or more digits. -/
def digitsOnly (l : List Char) : Bool := !l.isEmpty && l.all Char.isDigit

/-- Last dot-group of a version base: digits, optionally followed by one
lower-case letter (portage's `1.0a` style). -/
def lastGroupOk (g : List Char) : Bool :=
  digitsOnly g ||
    (match g.reverse with
     | c :: rest => c.isLower && !rest.isEmpty && rest.all Char.isDigit
     | [] => false)

/-- Numeric-dot base of a version: `digits(.digits)*` with an optional
single trailing letter. -/
def baseOk (l : List Char) : Bool :=
  match (splitOnChar '.' l).reverse with
  | [] => false
  | lastG :: others => others.all digitsOnly && lastGroupOk lastG

/-- One `_suffix` group of a version: `(alpha|beta|pre|rc|p)` followed by
optional digits. -/
def sufOk (g : List Char) : Bool :=
  (["alpha", "beta", "pre", "rc", "p"].map String.data).any
    (fun w => w.isPrefixOf g && (g.drop w.length).all Char.isDigit)

/-- Modelled from the spec: the version grammar of the external
package-atom splitter collaborator (spec 6: "versions not matching a
numeric-dot/`_suffix` grammar" are rejected); stands in for portage's
`ververify`, which is not part of this repository. -/
def ververify (v : String) : Bool :=
  match splitOnChar '_' v.data with
  | [] => false
  | base :: sufs => baseOk base && sufs.all sufOk

/-- A trailing portage revision token `rN`. -/
def isRev (l : List Char) : Bool :=
  match l with
  | 'r' :: ds => digitsOnly ds
  | _ => false

/-- Modelled from the spec: the external package-atom splitter
collaborator (spec 6: `split(token) -> optional(name, version, revision)`
with "letters/digits/dots for version, trailing `-rN` for revision");
stands in for portage's `pkgsplit`, which is not part of this repository.
The filename splits at dashes; the last dash group (or the two last, when
the final one is a revision) must form a valid version, the rest is the
non-empty name. -/
def pkgsplit (p : String) : Option (String × String × String) :=
  match (splitOnChar '-' p.data).reverse with
  | [] => none
  | [_] => none
  | last :: prev :: rest =>
    if isRev last && ververify (String.mk prev) && !rest.isEmpty &&
        !(List.intercalate ['-'] rest.reverse).isEmpty then
      some (String.mk (List.intercalate ['-'] rest.reverse), String.mk prev, String.mk last)
    else if ververify (String.mk last) &&
        !(List.intercalate ['-'] ((prev :: rest).reverse)).isEmpty then
      some (String.mk (List.intercalate ['-'] ((prev :: rest).reverse)), String.mk last, "r0")
    else none

/-- Package-name characters accepted by the atom validator (spec 6: it
"must reject names/versions containing disallowed characters (spaces,
dots, uppercase in name)"). -/
def nameOk (l : List Char) : Bool :=
  !l.isEmpty && l.all (fun c => c.isLower || c.isDigit || c == '+' || c == '_' || c == '-')

/-- Category characters of an atom (`dev-python` and the like). -/
def catOk (l : List Char) : Bool :=
  !l.isEmpty && l.all (fun c => c.isLower || c.isDigit || c == '+' || c == '_' || c == '-' || c == '.')

/-- Modelled from the spec: the external atom validator collaborator
(spec 6: `is_valid_atom(candidate) -> bool` for strings of the shape
`=namespace/name-version[-revision]`); stands in for
`portage_dep.isvalidatom`, which is not part of this repository. -/
def isvalidatom (atom : String) : Bool :=
  match atom.data with
  | '=' :: rest =>
    match splitOnChar '/' rest with
    | [cat, pkg] =>
      catOk cat &&
        (match pkgsplit (String.mk pkg) with
         | some (n, _, _) => nameOk n.data
         | none => false)
    | _ => false
  | _ => false

/-- `Enamer.is_valid_uri` (enamer.py lines 89-107): literal scheme
allow-list. -/
def is_valid_uri (uri : String) : Bool :=
  pyStarts uri "http:" || pyStarts uri "ftp:" || pyStarts uri "mirror:" || pyStarts uri "svn:"

/-- `Enamer.split_uri` (enamer.py lines 117-135): split the
extension-stripped filename with the package-atom splitter. -/
def split_uri (uri : String) : Option (String × String × String) :=
  pkgsplit (get_filename uri)

/-- `Enamer._is_good_filename` (enamer.py lines 109-115): return the split
only when the URI scheme is allowed and the split's name is `islower()`. -/
def is_good_filename (uri : String) : Option (String × String × String) :=
  if is_valid_uri uri then
    match split_uri uri with
    | some ps => if pyIslower ps.1.data then some ps else none
    | none => none
  else none

/-- `Enamer._get_components` (enamer.py lines 137-145): filename replaced
by `${P}` in the URI, name lower-cased. The source indexes the split
unconditionally (it is only called under the `_is_good_filename` guard);
the `none` case is the unreachable fallback. -/
def get_components (uri : String) : String × String × String :=
  let p := get_filename uri
  let uri_out := pyReplace uri p "${P}"
  match split_uri uri with
  | some (n, v, _) => (uri_out, String.mk (lowerL n.data), v)
  | none => (uri_out, "", "")

/-- `Enamer._guess_components` (enamer.py lines 147-162): underscores to
dashes, then the package-atom splitter; empty strings when it fails. -/
def guess_components (my_p : String) : String × String :=
  match pkgsplit (pyReplace my_p "_" "-") with
  | some (n, v, _) => (n, v)
  | none => ("", "")

/-- `Enamer.get_my_p` (enamer.py lines 562-578): `(uri with the filename
replaced by the MY_P token, filename)`. -/
def get_my_p (uri : String) : String × String :=
  let my_p := get_filename uri
  (pyReplace uri my_p "${MY_P}", my_p)

/-- `Enamer._get_src_uri` (enamer.py lines 538-560). In the guessing
branch the source rebinds its local `my_pn` with the fresh list returned
by `parse_pn(pn)` (called without the accumulator), and its comparison
`my_pn != pn` compares a list to a string, which in Python 2 is always
true, so the branch reduces to `my_pn` being non-empty. Returns
`(src_uri, my_p, my_pn, my_p_raw)`. -/
def get_src_uri (uri : String) (my_pn : List String) : String × String × List String × String :=
  match is_good_filename uri with
  | some _ =>
    let (src_uri, _, _) := get_components uri
    (src_uri, "", my_pn, "")
  | none =>
    let (src_uri, my_p0) := get_my_p uri
    let (pn0, pv0) := guess_components my_p0
    if !pn0.isEmpty && !pv0.isEmpty then
      let (pn1, my_pn1) := parse_pn pn0 []
      let my_p1 :=
        if !my_pn1.isEmpty then
          my_pn1.foldl (fun acc one => pyReplace acc one "${MY_PN}") my_p0
        else pyReplace my_p0 pn1 "${PN}"
      (src_uri, pyReplace my_p1 pv0 "${PV}", my_pn1, my_p0)
    else (src_uri, my_p0, my_pn, "")

/-- Output record of `Enamer.get_vars` (the eight-key dict of enamer.py
lines 527-536). -/
structure PackageVars where
  pn : String
  pv : String
  p : String
  my_p : String
  my_pn : List String
  my_pv : List String
  my_p_raw : String
  src_uri : String
deriving Repr, DecidableEq

/-- First half of `Enamer.get_vars` (enamer.py lines 448-497): URI
sanitizing, the `-r…` tail test (the bare `except` at line 460 swallows
the IndexError of indexing an empty last dash segment), the validity test
of the upstream atom, the conditional `parse_pv` normalization, the
fallback derivation of pn/pv from the URI, and the final `parse_pn`.
`V` is the atom-validator collaborator. Returns
`(pn, pv, my_pn, my_pv, sanitized uri)`. -/
def get_vars_pre (V : String → Bool) (uri up_pn up_pv pn0 pv0 : String)
    (my_pn0 my_pv0 : List String) : String × String × List String × List String × String :=
  let uri1 := sanitize_uri uri
  let tailIsR :=
    match (splitOnChar '-' up_pv.data).getLastD [] with
    | c :: _ => c == 'r'
    | [] => false
  let portage_atom := "=dev-python/" ++ up_pn ++ "-" ++ up_pv
  let INVALID_VERSION := tailIsR || !(V portage_atom)
  let q :=
    if INVALID_VERSION then parse_pv up_pn up_pv pn0 pv0 my_pn0 my_pv0
    else (pn0, pv0, my_pn0, my_pv0)
  let w :=
    if q.1.isEmpty && q.2.1.isEmpty then
      match split_uri uri1 with
      | some (n, v, _) => (n, v)
      | none => (up_pn, up_pv)
    else if !q.1.isEmpty && q.2.1.isEmpty then (q.1, up_pv)
    else if q.1.isEmpty && !q.2.1.isEmpty then (String.mk (lowerL up_pn.data), q.2.1)
    else (q.1, q.2.1)
  let pr := parse_pn w.1 q.2.2.1
  (pr.1, w.2, pr.2, q.2.2.2, uri1)

/-- Second half of `Enamer.get_vars` (enamer.py lines 509-536), entered
only after the atom validation at lines 502-507 succeeded: decide between
the plain `${P}` form (filename equals `p`; clears `my_pn` and
`my_p_raw` — but not `my_pv`), the `${MY_P}` form (some rule list
non-empty), and the `_get_src_uri` guessing fallback; then compose
`my_p` from the rule lists. -/
def get_vars_rest (uri1 pn pv : String) (my_pn my_pv : List String) : PackageVars :=
  let p := pn ++ "-" ++ pv
  let g := get_my_p uri1
  let b :=
    if g.2 == p then (pyReplace g.1 "${MY_P}" "${P}", "", ([] : List String), "")
    else if !my_pn.isEmpty || !my_pv.isEmpty then
      ((get_my_p uri1).1, "", my_pn, (get_my_p uri1).2)
    else get_src_uri uri1 my_pn
  let my_p2 :=
    if !b.2.2.1.isEmpty || !my_pv.isEmpty then
      (if !b.2.2.1.isEmpty then "${MY_PN}" else "${PN}") ++ "-" ++
        (if !my_pv.isEmpty then "${MY_PV}" else "${PV}")
    else b.2.1
  ⟨pn, pv, p, my_p2, b.2.2.1, my_pv, b.2.2.2, b.1⟩

/-- `Enamer.get_vars` (enamer.py lines 364-536). The `raise
GPyPiInvalidAtom` at lines 504-507 is modelled as `Except.error` carrying
the candidate atom named in the exception message; everything after the
validation is total and returns `Except.ok`. -/
def get_vars (V : String → Bool) (uri up_pn up_pv pn0 pv0 : String)
    (my_pn0 my_pv0 : List String) : Except String PackageVars :=
  let q := get_vars_pre V uri up_pn up_pv pn0 pv0 my_pn0 my_pv0
  let atom := "=dev-python/" ++ q.1 ++ "-" ++ q.2.1
  if !(V atom) then Except.error atom
  else Except.ok (get_vars_rest q.2.2.2.2 q.1 q.2.1 q.2.2.1 q.2.2.2.1)

/-- The corrected firing condition of the revision-suffix extraction,
written out as a decomposition: the version is anything, then optional
separators, one of the markers `r`/`patch`/`p` (case-insensitive), then
optional separators and an optional (possibly empty) digit run reaching
the end. This is the claim's pattern with the digit group allowed to be
empty, matching the source's `([0-9]*)`. -/
def RevDecomp (t : List Char) : Prop :=
  ∃ g1 s1 m s2 d, t = g1 ++ s1 ++ m ++ s2 ++ d ∧ s1.all isSep = true ∧
    s2.all isSep = true ∧
    (lowerL m = ['r'] ∨ lowerL m = ['p', 'a', 't', 'c', 'h'] ∨ lowerL m = ['p']) ∧
    d.all Char.isDigit = true

/-- Whether some variant regex of the suffix kind `k` matches `v`
(used to speak about individual kinds of the ladder). -/
def kindMatchB (k : String) (v : List Char) : Bool :=
  match sufKinds.find? (fun e => e.1 == k) with
  | some e => (firstMatch e.2 v).isSome
  | none => false

/-- Caller-visible content of the list object passed as `my_pv` to
`Enamer.parse_pv` after the call returns. Python passes the list by
reference; `my_pv = my_pv or []` (enamer.py line 251) aliases the
caller's list exactly when it is non-empty, and the subsequent
`my_pv.append(...)` calls then mutate it in place, so the caller sees the
returned list; a caller-supplied empty list is replaced by a fresh one
and stays empty. -/
def parse_pv_caller_my_pv (up_pn up_pv pn pv : String) (my_pn my_pv : List String) :
    List String :=
  if my_pv.isEmpty then my_pv
  else (parse_pv up_pn up_pv pn pv my_pn my_pv).2.2.2

/-- Caller-visible content of the list object passed as `my_pn` to
`Enamer.parse_pn` after the call returns (same aliasing as in
`parse_pv_caller_my_pv`: `my_pn = my_pn or []` at enamer.py line 318). -/
def parse_pn_caller_my_pn (pn : String) (my_pn : List String) : List String :=
  if my_pn.isEmpty then my_pn
  else (parse_pn pn my_pn).2

/-!
Sanity checks of the embedding: every `example` below replays a behavior
verified against the source's doctests and the CPython `re` engine
on the same inputs.
-/

example : strip_ext "/home/user/filename.zip" = "/home/user/filename" := by decide

example : strip_ext "/home/user/filename.unknown" = "/home/user/filename.unknown" := by decide

example : strip_ext "foobar-1.0.tar.gz" = "foobar-1.0" := by decide

example : revSearch "1.0-r1234".data = some ("1.0".data, "-r".data, "1234".data) := by decide

example : revSearch "1.0-r".data = some ("1.0".data, "-r".data, "".data) := by decide

example : revSearch "1.0b1".data = none := by decide

example : revSearch "x-p-r5".data = some ("x-p".data, "-r".data, "5".data) := by decide

example : revSearch "1.0patch".data = some ("1.0".data, "patch".data, "".data) := by decide

example : revSearch "1.0-patchr7".data = some ("1.0-patch".data, "r".data, "7".data) := by decide

example : revSearch "foobar".data = some ("fooba".data, "r".data, "".data) := by decide

example : revSearch "R5".data = some ("".data, "R".data, "5".data) := by decide

example : revSearch "x.r-3".data = some ("x".data, ".r-".data, "3".data) := by decide

example : revSearch "x.r-3-".data = none := by decide

example : revSearch "1.0".data = none := by decide

example : betaV2 "1.0b1".data = some ("1.0".data, "b".data, "1".data) := by decide

example : betaV1 "1.0beta1".data = some ("1.0".data, "beta".data, "1".data) := by decide

example : alphaV2 "1.0beta1".data = some ("1.0bet".data, "a".data, "1".data) := by decide

example : alphaV2 "1.0a1".data = some ("1.0".data, "a".data, "1".data) := by decide

example : preV1 "1.0.dev-r1234".data = some ("1.0".data, ".dev-r".data, "1234".data) := by decide

example : preV1 "1.0devr4".data = some ("1.0".data, "devr".data, "4".data) := by decide

example : preV1 "1.0dev-r".data = none := by decide

example : alphaV1 "1.0alpha".data = some ("1.0".data, "alpha".data, "".data) := by decide

example : rcV1 "1.0rc3".data = some ("1.0".data, "rc".data, "3".data) := by decide

example : rcV2 "1.0c".data = some ("1.0".data, "c".data, "".data) := by decide

example : ladderClassify "1.0b1".data = some ("_beta", "1.0".data, "b".data, "1".data) := by decide

example : ladderClassify "1.0beta1".data =
    some ("_beta", "1.0".data, "beta".data, "1".data) := by decide

example : ladderClassify "1.0a1".data = some ("_alpha", "1.0".data, "a".data, "1".data) := by decide

example : ladderClassify "1.0rc3".data = some ("_rc", "1.0".data, "rc".data, "3".data) := by decide

example : ladderClassify "1.0".data = none := by decide

example : ladderClassify "1.0dev".data = none := by decide

example : badSearch "1.0dev".data = some "dev".data := by decide

example : badSearch "1.0--dev".data = some "--dev".data := by decide

example : badSearch "1.0devel".data = some "devel".data := by decide

example : badSearch "1.0".data = none := by decide

example : parse_pn "Test-Me" [] = ("test-me", ["Test-Me"]) := by decide

example : parse_pn "test.me" [] = ("test-me", ["$\x7bPN/-/.\x7d"]) := by decide

example : parse_pn "foobar" [] = ("foobar", []) := by decide

example : parse_pn "@@@" [] = ("@@@", ["@@@"]) := by decide

example : parse_pv "foo.bar" "1.0b2" "" "" [] [] =
    ("foo-bar", "1.0_beta2", ["$\x7bPN/-/.\x7d"], ["${PV/_beta/b}"]) := by decide

example : parse_pv "foo" "1.0b1" "" "" [] [] =
    ("foo", "1.0_beta1", [], ["${PV/_beta/b}"]) := by decide

example : parse_pv "foo" "1.0-r1234" "" "" [] [] =
    ("foo", "1.0.1234", [], ["${PV: -5}-r1234"]) := by decide

example : parse_pv "foo" "1.0dev-r1234" "" "" [] [] =
    ("foo", "1.0.1234", [], ["${PV: -5}-r1234", "${PV}dev"]) := by decide

example : parse_pv "foo" "1.0" "" "" [] [] = ("foo", "", [], []) := by decide

example : get_filename "http://somesite.com/foobar-1.0.tar.gz" = "foobar-1.0" := by decide

example : sanitize_uri
    "http://downloads.sourceforge.net/pythonreports/PythonReports-0.3.1.tar.gz?modtime=1182702645"
    = "http://downloads.sourceforge.net/pythonreports/PythonReports-0.3.1.tar.gz" := by decide

example : pkgsplit "foobar-1.0" = some ("foobar", "1.0", "r0") := by decide

example : pkgsplit "foo-2.3_beta3-r5" = some ("foo", "2.3_beta3", "r5") := by decide

example : pkgsplit "123-1.0" = some ("123", "1.0", "r0") := by decide

example : pkgsplit "pkg.foo-1.0b1" = none := by decide

example : pkgsplit "foobar" = none := by decide

example : isvalidatom "=dev-python/foobar-1.0" = true := by decide

example : isvalidatom "=dev-python/foobar-1.0b1" = false := by decide

example : isvalidatom "=dev-python/@@@-1.0" = false := by decide

example : isvalidatom "=dev-python/foo-1.0.1234" = true := by decide

example : isvalidatom "=dev-python/pkg-foo-1.0_beta1" = true := by decide

example : isvalidatom "dev-python/foobar-1.0" = false := by decide

example : split_uri "http://www.foobar.com/foobar-1.0.tar.gz" =
    some ("foobar", "1.0", "r0") := by decide

example : split_uri "http://www.foobar.com/foo-2.3_beta3-r5.tar.gz" =
    some ("foo", "2.3_beta3", "r5") := by decide

example : get_my_p "http://www.foobar.com/foobar-1.0.tar.gz" =
    ("http://www.foobar.com/${MY_P}.tar.gz", "foobar-1.0") := by decide

example : get_vars isvalidatom "http://www.foo.com/pkg.foo-1.0b1.tbz2" "pkg.foo" "1.0b1" "" "" [] []
    = Except.ok ⟨"pkg-foo", "1.0_beta1", "pkg-foo-1.0_beta1", "${MY_PN}-${MY_PV}",
        ["$\x7bPN/-/.\x7d"], ["${PV/_beta/b}"], "pkg.foo-1.0b1",
        "http://www.foo.com/${MY_P}.tbz2"⟩ := rfl

example : get_vars isvalidatom "http://host/foobar-1.0.tar.gz" "foobar" "1.0" "" "" [] []
    = Except.ok ⟨"foobar", "1.0", "foobar-1.0", "", [], [], "",
        "http://host/${P}.tar.gz"⟩ := rfl

example : get_vars isvalidatom "http://host/@@@-1.0.tar.gz" "@@@" "1.0" "" "" [] []
    = Except.error "=dev-python/@@@-1.0" := rfl

example : get_vars isvalidatom "http://host/foo-1.0.1234.tar.gz" "foo" "1.0-r1234" "" "" [] []
    = Except.ok ⟨"foo", "1.0.1234", "foo-1.0.1234", "${PN}-${MY_PV}",
        [], ["${PV: -5}-r1234"], "", "http://host/${P}.tar.gz"⟩ := rfl

/-- C1: for the input URI `http://host/foobar-1.0.tar.gz` with upstream
name `foobar`, upstream version `1.0` and no caller overrides, `get_vars`
returns pn `foobar`, pv `1.0`, p `foobar-1.0`, empty `my_pn`/`my_pv` rule
lists, empty `my_p`/`my_p_raw`, and src_uri `http://host/${P}.tar.gz`
with the filename replaced by the canonical placeholder. -/
theorem c1_clean_filename_roundtrip :
    get_vars isvalidatom "http://host/foobar-1.0.tar.gz" "foobar" "1.0" "" "" [] [] =
      Except.ok ⟨"foobar", "1.0", "foobar-1.0", "", [], [], "", "http://host/${P}.tar.gz"⟩ :=
  rfl

/-- C2: `get_vars` fails exactly when the composed atom
`=dev-python/<pn>-<pv>` (built from the post-normalization pn/pv computed
by `get_vars_pre`) fails atom validation; the error carries that candidate
atom and is the engine's only failure outcome (every error value equals
that atom, and validation success yields a full record). Stated for every
atom-validator collaborator `V` and all inputs. -/
theorem c2_invalid_atom_sole_failure (V : String → Bool) (uri up_pn up_pv pn0 pv0 : String)
    (my_pn0 my_pv0 : List String) :
    (get_vars V uri up_pn up_pv pn0 pv0 my_pn0 my_pv0 =
        Except.error ("=dev-python/" ++ (get_vars_pre V uri up_pn up_pv pn0 pv0 my_pn0 my_pv0).1
          ++ "-" ++ (get_vars_pre V uri up_pn up_pv pn0 pv0 my_pn0 my_pv0).2.1) ↔
      V ("=dev-python/" ++ (get_vars_pre V uri up_pn up_pv pn0 pv0 my_pn0 my_pv0).1
          ++ "-" ++ (get_vars_pre V uri up_pn up_pv pn0 pv0 my_pn0 my_pv0).2.1) = false) ∧
    ∀ e, get_vars V uri up_pn up_pv pn0 pv0 my_pn0 my_pv0 = Except.error e →
      e = "=dev-python/" ++ (get_vars_pre V uri up_pn up_pv pn0 pv0 my_pn0 my_pv0).1
          ++ "-" ++ (get_vars_pre V uri up_pn up_pv pn0 pv0 my_pn0 my_pv0).2.1 := by
  cases hV : V ("=dev-python/" ++ (get_vars_pre V uri up_pn up_pv pn0 pv0 my_pn0 my_pv0).1
      ++ "-" ++ (get_vars_pre V uri up_pn up_pv pn0 pv0 my_pn0 my_pv0).2.1) with
  | false =>
    constructor
    · simp [get_vars, hV]
    · intro e he
      simp [get_vars, hV] at he
      exact he.symm
  | true =>
    constructor
    · simp [get_vars, hV]
    · intro e he
      simp [get_vars, hV] at he

/-- Witness for C2 at a concrete input: the upstream name `@@@` survives
normalization unchanged, the atom `=dev-python/@@@-1.0` fails validation
and `get_vars` raises with exactly that candidate. -/
theorem c2_invalid_atom_sole_failure_witness :
    get_vars isvalidatom "http://host/@@@-1.0.tar.gz" "@@@" "1.0" "" "" [] [] =
      Except.error ("=dev-python/"
        ++ (get_vars_pre isvalidatom "http://host/@@@-1.0.tar.gz" "@@@" "1.0" "" "" [] []).1
        ++ "-"
        ++ (get_vars_pre isvalidatom "http://host/@@@-1.0.tar.gz" "@@@" "1.0" "" "" [] []).2.1) :=
  (c2_invalid_atom_sole_failure isvalidatom "http://host/@@@-1.0.tar.gz" "@@@" "1.0" "" "" []
    []).1.mpr (by decide)

/-- C3: for upstream version `1.0b1` and an initially empty version-rule
list, `parse_pv` produces canonical version `1.0_beta1` and records
exactly one inverse rule `${PV/_beta/b}`, which recovers `b1` from the
canonical `_beta1` token (applying the substitution to `1.0_beta1` gives
back `1.0b1`). Stated for every upstream name and pn/pv override. -/
theorem c3_beta_suffix_rewrite (up_pn pn pv : String) (my_pn : List String) :
    (parse_pv up_pn "1.0b1" pn pv my_pn []).2.1 = "1.0_beta1" ∧
    (parse_pv up_pn "1.0b1" pn pv my_pn []).2.2.2 = ["${PV/_beta/b}"] ∧
    pyReplace "1.0_beta1" "_beta" "b" = "1.0b1" :=
  ⟨rfl, rfl, by decide⟩

/-- C4: for upstream version `1.0-r1234` and an initially empty
version-rule list, `parse_pv` yields `1.0` with the numeric dot-component
`.1234` appended, plus the single inverse rule `${PV: -5}-r1234`, which
drops a suffix slice of the canonical version of that component's length
(5) and restores the original `-r1234`. -/
theorem c4_revision_suffix_composition (up_pn pn pv : String) (my_pn : List String) :
    (parse_pv up_pn "1.0-r1234" pn pv my_pn []).2.1 = "1.0" ++ ".1234" ∧
    (parse_pv up_pn "1.0-r1234" pn pv my_pn []).2.2.2 = ["${PV: -5}-r1234"] ∧
    (".1234" : String).data.length = 5 ∧
    String.mk (("1.0.1234" : String).data.take (("1.0.1234" : String).data.length - 5)) ++ "-r1234"
      = "1.0-r1234" :=
  ⟨rfl, rfl, by decide, by decide⟩

/-- C5 counterexample: the claim requires a non-empty trailing digit
group, but the source pattern ends in `([0-9]*)$`; on `1.0-r` (marker
with no digits) the extraction fires anyway, recording the inverse rule
`${PV: -1}-r` and producing the canonical version `1.0.` with an empty
revision component. -/
theorem c5_counterexample_empty_digits :
    revSearch "1.0-r".data = some ("1.0".data, "-r".data, []) ∧
    parse_pv "foo" "1.0-r" "" "" [] [] = ("foo", "1.0.", [], ["${PV: -1}-r"]) :=
  ⟨by decide, rfl⟩

/-- C6 counterexample: `1.0beta1` is matched both by an `_alpha` variant
regex and by a `_beta` variant regex; under the claimed priority order
(`_pre`, `_alpha`, `_beta`, `_rc`) the earlier `_alpha` kind would
determine the suffix, but the code classifies it as `_beta`
(pv `1.0_beta1`), because the dict iteration order is not the claimed
one. -/
theorem c6_counterexample_order :
    (alphaV2 "1.0beta1".data).isSome = true ∧
    (betaV1 "1.0beta1".data).isSome = true ∧
    ladderClassify "1.0beta1".data = some ("_beta", "1.0".data, "beta".data, "1".data) ∧
    parse_pv "foo" "1.0beta1" "" "" [] [] = ("foo", "1.0_beta1", [], ["${PV/_beta/beta}"]) :=
  ⟨by decide, by decide, by decide, rfl⟩

/-- C7 counterexample: for URI `http://host/foo-1.0.1234.tar.gz` with
upstream version `1.0-r1234`, the extension-stripped filename equals the
combined token `foo-1.0.1234` (the record's `p`), and `get_vars` does
clear `my_pn`/`my_p_raw` and uses `${P}` — but the accumulated version
rule list `my_pv` is NOT cleared and `my_p` is `${PN}-${MY_PV}` rather
than empty, contradicting the claim. -/
theorem c7_counterexample_my_pv_kept :
    get_vars isvalidatom "http://host/foo-1.0.1234.tar.gz" "foo" "1.0-r1234" "" "" [] [] =
      Except.ok ⟨"foo", "1.0.1234", "foo-1.0.1234", "${PN}-${MY_PV}", [], ["${PV: -5}-r1234"],
        "", "http://host/${P}.tar.gz"⟩ ∧
    get_filename (sanitize_uri "http://host/foo-1.0.1234.tar.gz") = "foo-1.0.1234" :=
  ⟨rfl, by decide⟩

/-- C8 counterexample: extension stripping is not idempotent on stacked
extensions: `a.zip.zip` strips to `a.zip`, which strips again to `a`. -/
theorem c8_counterexample_double_ext :
    strip_ext "a.zip.zip" = "a.zip" ∧ strip_ext (strip_ext "a.zip.zip") = "a" ∧
    strip_ext (strip_ext "a.zip.zip") ≠ strip_ext "a.zip.zip" :=
  ⟨by decide, by decide, by decide⟩

/-- C9 counterexample: a caller-supplied non-empty `my_pv` list is
mutated in place by `parse_pv` (Python list aliasing through
`my_pv or []` plus `.append`): after the call the caller's list holds the
appended beta rule, not its original content. -/
theorem c9_counterexample_mutation :
    parse_pv_caller_my_pv "foo" "1.0b1" "" "" [] ["x"] = ["x", "${PV/_beta/b}"] ∧
    parse_pv_caller_my_pv "foo" "1.0b1" "" "" [] ["x"] ≠ ["x"] :=
  ⟨rfl, by decide⟩

/-- C10: whenever the URI's scheme is allowed and the filename splits but
the name token has no alphabetic characters, `_is_good_filename` rejects
the split (returns None): Python's `islower()` is false on strings
without cased characters. -/
theorem c10_good_filename_rejects_caseless (uri pn pv rev : String)
    (h1 : is_valid_uri uri = true)
    (h2 : split_uri uri = some (pn, pv, rev))
    (h3 : pn.data.all (fun c => !c.isAlpha) = true) :
    is_good_filename uri = none := by
  have hany : pn.data.any Char.isLower = false := by
    rw [List.any_eq_false]
    intro c hc hl
    have h4 : c.isAlpha = false := by simpa using (List.all_eq_true.mp h3) c hc
    unfold Char.isAlpha at h4
    rw [(Bool.or_eq_false_iff.mp h4).2] at hl
    exact Bool.noConfusion hl
  have hlow : pyIslower pn.data = false := by
    unfold pyIslower
    rw [hany]
    rfl
  simp [is_good_filename, h1, h2, hlow]

/-- Witness for C10: the URI `http://host/123-1.0.tar.gz` has an allowed
scheme, splits into (`123`, `1.0`, `r0`), the name `123` has no letters,
and the gate returns None. -/
theorem c10_good_filename_rejects_caseless_witness :
    is_good_filename "http://host/123-1.0.tar.gz" = none :=
  c10_good_filename_rejects_caseless "http://host/123-1.0.tar.gz" "123" "1.0" "r0"
    (by decide) (by decide) (by decide)

/-- C8 amended: extension stripping strips one layer per application, so
it is idempotent on every input whose stripped result no longer ends in a
listed extension (in particular on every ordinary `name-version.ext`
filename); stacked extensions are the only failures. -/
theorem c8_strip_ext_strips_one_layer (x : String)
    (h : (valid_extensions.all fun e => !(pyEndsWith (strip_ext x) e)) = true) :
    strip_ext (strip_ext x) = strip_ext x := by
  have hnone : valid_extensions.find? (fun e => pyEndsWith (strip_ext x) e) = none := by
    rw [List.find?_eq_none]
    intro e he
    have h2 := (List.all_eq_true.mp h) e he
    simp only [Bool.not_eq_true'] at h2
    simp [h2]
  show (match valid_extensions.find? (fun e => pyEndsWith (strip_ext x) e) with
    | some e => String.mk ((strip_ext x).data.take ((strip_ext x).data.length - e.data.length))
    | none => strip_ext x) = strip_ext x
  rw [hnone]

/-- Witness for C8 amended at `foobar-1.0.tar.gz`: one application
strips to `foobar-1.0`, which ends in no listed extension, so the second
application is the identity. -/
theorem c8_strip_ext_strips_one_layer_witness :
    strip_ext (strip_ext "foobar-1.0.tar.gz") = strip_ext "foobar-1.0.tar.gz" :=
  c8_strip_ext_strips_one_layer "foobar-1.0.tar.gz" (by decide)

/-- Shape helper: a list extends itself with an empty tail. -/
theorem append_extends_nil {α} (base : List α) : ∃ t, base = base ++ t :=
  ⟨[], (List.append_nil base).symm⟩

/-- Shape helper: one appended block. -/
theorem append_extends_one {α} (base a : List α) : ∃ t, base ++ a = base ++ t := ⟨a, rfl⟩

/-- Shape helper: two appended blocks. -/
theorem append_extends_two {α} (base a b : List α) : ∃ t, (base ++ a) ++ b = base ++ t :=
  ⟨a ++ b, List.append_assoc base a b⟩

/-- Shape helper: three appended blocks. -/
theorem append_extends_three {α} (base a b c : List α) :
    ∃ t, ((base ++ a) ++ b) ++ c = base ++ t :=
  ⟨a ++ (b ++ c), by rw [List.append_assoc, List.append_assoc]⟩

/-- The rule list returned by `parse_pn` extends the one passed in:
all modification is by appending. -/
theorem parse_pn_my_pn_extends (pn : String) (my_pn : List String) :
    ∃ t, (parse_pn pn my_pn).2 = my_pn ++ t := by
  simp only [parse_pn]
  split_ifs <;>
    first
      | exact append_extends_nil _
      | exact append_extends_one _ _
      | exact append_extends_two _ _ _
      | exact append_extends_three _ _ _ _

/-- The version-rule list returned by `parse_pv` extends the one passed
in: all modification is by appending. -/
theorem parse_pv_my_pv_extends (up_pn up_pv pn pv : String) (my_pn my_pv : List String) :
    ∃ t, (parse_pv up_pn up_pv pn pv my_pn my_pv).2.2.2 = my_pv ++ t := by
  unfold parse_pv
  rcases hrev : revSearch up_pv.data with _ | ⟨g1, g2, g3⟩
  · simp only [hrev]
    try dsimp only
    rcases hlad : ladderClassify up_pv.data with _ | ⟨suf, a, b, c⟩
    · simp only [hlad]
      try dsimp only
      rcases hbad : badSearch up_pv.data with _ | sfx
      · simp only [hbad]
        exact append_extends_nil _
      · simp only [hbad]
        exact append_extends_one _ _
    · simp only [hlad]
      exact append_extends_one _ _
  · simp only [hrev]
    try dsimp only
    rcases hlad : ladderClassify g1 with _ | ⟨suf, a, b, c⟩
    · simp only [hlad]
      try dsimp only
      rcases hbad : badSearch g1 with _ | sfx
      · simp only [hbad]
        exact append_extends_one _ _
      · simp only [hbad]
        exact append_extends_two _ _ _
    · simp only [hlad]
      exact append_extends_two _ _ _

/-- C9 amended: the accumulator lists are threaded by reference and only
ever appended to. The caller's original list content stays as an initial
segment of the caller-visible list after the call; a non-empty
caller-supplied list is mutated in place so that the caller sees exactly
the returned rule list, while an empty caller-supplied list is left
untouched (a fresh list takes its place inside the callee). Holds for
both `parse_pv` (version rules) and `parse_pn` (name rules). -/
theorem c9_rule_lists_append_alias (up_pn up_pv pn pv : String) (my_pn my_pv : List String) :
    (∃ t, parse_pv_caller_my_pv up_pn up_pv pn pv my_pn my_pv = my_pv ++ t) ∧
    (my_pv.isEmpty = true → parse_pv_caller_my_pv up_pn up_pv pn pv my_pn my_pv = my_pv) ∧
    (my_pv.isEmpty = false →
      parse_pv_caller_my_pv up_pn up_pv pn pv my_pn my_pv =
        (parse_pv up_pn up_pv pn pv my_pn my_pv).2.2.2) ∧
    (∃ t, parse_pn_caller_my_pn up_pn my_pn = my_pn ++ t) ∧
    (my_pn.isEmpty = true → parse_pn_caller_my_pn up_pn my_pn = my_pn) ∧
    (my_pn.isEmpty = false → parse_pn_caller_my_pn up_pn my_pn = (parse_pn up_pn my_pn).2) := by
  refine ⟨?_, ?_, ?_, ?_, ?_, ?_⟩
  · unfold parse_pv_caller_my_pv
    split_ifs with h
    · exact append_extends_nil _
    · exact parse_pv_my_pv_extends up_pn up_pv pn pv my_pn my_pv
  · intro h; simp [parse_pv_caller_my_pv, h]
  · intro h; simp [parse_pv_caller_my_pv, h]
  · unfold parse_pn_caller_my_pn
    split_ifs with h
    · exact append_extends_nil _
    · exact parse_pn_my_pn_extends up_pn my_pn
  · intro h; simp [parse_pn_caller_my_pn, h]
  · intro h; simp [parse_pn_caller_my_pn, h]

/-- Witness for C9 amended at a concrete non-empty caller list: the
caller's `["x"]` is aliased, so the caller-visible list equals the
returned rule list. -/
theorem c9_rule_lists_append_alias_witness :
    parse_pv_caller_my_pv "foo" "1.0b1" "" "" [] ["x"] =
      (parse_pv "foo" "1.0b1" "" "" [] ["x"]).2.2.2 :=
  (c9_rule_lists_append_alias "foo" "1.0b1" "" "" [] ["x"]).2.2.1 (by decide)

/-- An option whose `isSome` is false is `none`. -/
theorem option_eq_none_of_isSome_false {α} {o : Option α} (h : o.isSome = false) : o = none := by
  cases o with
  | none => rfl
  | some a => simp at h

/-- C6 amended: the suffix-ladder classification tries the kinds in the
fixed order `_beta`, `_rc`, `_pre`, `_alpha` (the CPython 2.7 64-bit
iteration order of the `suf_matches` dict literal), stopping at the first
kind any of whose variants matches: the result kind is `_beta` whenever
`_beta` matches, `_rc` whenever `_beta` fails and `_rc` matches, and so
on; when no kind matches, classification returns nothing. Hence for a
version matched by two different kinds, the kind earlier in THIS order
determines the canonical suffix. -/
theorem c6_ladder_first_kind_wins (v : List Char) :
    (kindMatchB "_beta" v = true → (ladderClassify v).map Prod.fst = some "_beta") ∧
    (kindMatchB "_beta" v = false → kindMatchB "_rc" v = true →
      (ladderClassify v).map Prod.fst = some "_rc") ∧
    (kindMatchB "_beta" v = false → kindMatchB "_rc" v = false → kindMatchB "_pre" v = true →
      (ladderClassify v).map Prod.fst = some "_pre") ∧
    (kindMatchB "_beta" v = false → kindMatchB "_rc" v = false → kindMatchB "_pre" v = false →
      kindMatchB "_alpha" v = true → (ladderClassify v).map Prod.fst = some "_alpha") ∧
    (kindMatchB "_beta" v = false → kindMatchB "_rc" v = false → kindMatchB "_pre" v = false →
      kindMatchB "_alpha" v = false → ladderClassify v = none) := by
  have hb : kindMatchB "_beta" v = (firstMatch [betaV1, betaV2, betaV3] v).isSome := rfl
  have hr : kindMatchB "_rc" v = (firstMatch [rcV1, rcV2, rcV3] v).isSome := rfl
  have hp : kindMatchB "_pre" v = (firstMatch [preV1, preV2] v).isSome := rfl
  have ha : kindMatchB "_alpha" v = (firstMatch [alphaV1, alphaV2, alphaV3] v).isSome := rfl
  have hlc : ladderClassify v =
      (match firstMatch [betaV1, betaV2, betaV3] v with
        | some g => some ("_beta", g)
        | none =>
          match firstMatch [rcV1, rcV2, rcV3] v with
          | some g => some ("_rc", g)
          | none =>
            match firstMatch [preV1, preV2] v with
            | some g => some ("_pre", g)
            | none =>
              match firstMatch [alphaV1, alphaV2, alphaV3] v with
              | some g => some ("_alpha", g)
              | none => none) := rfl
  refine ⟨?_, ?_, ?_, ?_, ?_⟩
  · intro h1
    rw [hb] at h1
    obtain ⟨g, hg⟩ := Option.isSome_iff_exists.mp h1
    rw [hlc, hg]
    rfl
  · intro h1 h2
    rw [hb] at h1
    rw [hr] at h2
    obtain ⟨g, hg⟩ := Option.isSome_iff_exists.mp h2
    rw [hlc, option_eq_none_of_isSome_false h1, hg]
    rfl
  · intro h1 h2 h3
    rw [hb] at h1
    rw [hr] at h2
    rw [hp] at h3
    obtain ⟨g, hg⟩ := Option.isSome_iff_exists.mp h3
    rw [hlc, option_eq_none_of_isSome_false h1, option_eq_none_of_isSome_false h2, hg]
    rfl
  · intro h1 h2 h3 h4
    rw [hb] at h1
    rw [hr] at h2
    rw [hp] at h3
    rw [ha] at h4
    obtain ⟨g, hg⟩ := Option.isSome_iff_exists.mp h4
    rw [hlc, option_eq_none_of_isSome_false h1, option_eq_none_of_isSome_false h2,
      option_eq_none_of_isSome_false h3, hg]
    rfl
  · intro h1 h2 h3 h4
    rw [hb] at h1
    rw [hr] at h2
    rw [hp] at h3
    rw [ha] at h4
    rw [hlc, option_eq_none_of_isSome_false h1, option_eq_none_of_isSome_false h2,
      option_eq_none_of_isSome_false h3, option_eq_none_of_isSome_false h4]

/-- Witness for C6 amended: `1.0b1` is matched by a `_beta` variant, and
the classification indeed reports `_beta`. -/
theorem c6_ladder_first_kind_wins_witness :
    (ladderClassify "1.0b1".data).map Prod.fst = some "_beta" :=
  (c6_ladder_first_kind_wins "1.0b1".data).1 (by decide)

/-- C7 amended: whenever `get_vars` succeeds and the URI's
extension-stripped filename equals the record's combined token `p`, the
result has an empty NAME-rule list, an empty `my_p_raw`, and the source
URI rewritten with the plain `${P}` placeholder (the `${MY_P}` token is
substituted away). The version-rule list `my_pv` is not cleared by this
branch (see the counterexample), so no claim is made about it. -/
theorem c7_plain_p_clears_name_rules (V : String → Bool) (uri up_pn up_pv pn0 pv0 : String)
    (my_pn0 my_pv0 : List String) (r : PackageVars)
    (hok : get_vars V uri up_pn up_pv pn0 pv0 my_pn0 my_pv0 = Except.ok r)
    (hfn : get_filename (sanitize_uri uri) = r.p) :
    r.my_pn = [] ∧ r.my_p_raw = "" ∧
    r.src_uri = pyReplace (pyReplace (sanitize_uri uri) (get_filename (sanitize_uri uri))
      "${MY_P}") "${MY_P}" "${P}" := by
  unfold get_vars at hok
  cases hV : V ("=dev-python/" ++ (get_vars_pre V uri up_pn up_pv pn0 pv0 my_pn0 my_pv0).1
      ++ "-" ++ (get_vars_pre V uri up_pn up_pv pn0 pv0 my_pn0 my_pv0).2.1) with
  | false =>
    simp only [hV, Bool.not_false, if_true] at hok
    exact absurd hok (by simp)
  | true =>
    simp only [hV, Bool.not_true, Bool.false_eq_true, if_false] at hok
    rw [Except.ok.injEq] at hok
    subst hok
    have hp : (get_vars_rest (get_vars_pre V uri up_pn up_pv pn0 pv0 my_pn0 my_pv0).2.2.2.2
        (get_vars_pre V uri up_pn up_pv pn0 pv0 my_pn0 my_pv0).1
        (get_vars_pre V uri up_pn up_pv pn0 pv0 my_pn0 my_pv0).2.1
        (get_vars_pre V uri up_pn up_pv pn0 pv0 my_pn0 my_pv0).2.2.1
        (get_vars_pre V uri up_pn up_pv pn0 pv0 my_pn0 my_pv0).2.2.2.1).p =
        (get_vars_pre V uri up_pn up_pv pn0 pv0 my_pn0 my_pv0).1 ++ "-" ++
        (get_vars_pre V uri up_pn up_pv pn0 pv0 my_pn0 my_pv0).2.1 := rfl
    have hcond : ((get_my_p ((get_vars_pre V uri up_pn up_pv pn0 pv0 my_pn0 my_pv0)).2.2.2.2).2 ==
        (get_vars_pre V uri up_pn up_pv pn0 pv0 my_pn0 my_pv0).1 ++ "-" ++
        (get_vars_pre V uri up_pn up_pv pn0 pv0 my_pn0 my_pv0).2.1) = true := by
      have hmpr : (get_my_p ((get_vars_pre V uri up_pn up_pv pn0 pv0 my_pn0 my_pv0)).2.2.2.2).2 =
          get_filename (sanitize_uri uri) := rfl
      rw [hmpr, hfn, hp]
      exact beq_self_eq_true _
    refine ⟨?_, ?_, ?_⟩
    · show (get_vars_rest _ _ _ _ _).my_pn = []
      simp only [get_vars_rest, hcond, if_true]
    · show (get_vars_rest _ _ _ _ _).my_p_raw = ""
      simp only [get_vars_rest, hcond, if_true]
    · show (get_vars_rest _ _ _ _ _).src_uri = _
      simp only [get_vars_rest, hcond, if_true]
      rfl

/-- Witness for C7 amended at `http://host/foobar-1.0.tar.gz`: the
filename `foobar-1.0` equals the record's `p`, so the name rules clear,
`my_p_raw` is empty and the URI carries `${P}`. -/
theorem c7_plain_p_clears_name_rules_witness :
    (⟨"foobar", "1.0", "foobar-1.0", "", [], [], "",
        "http://host/${P}.tar.gz"⟩ : PackageVars).my_pn = [] ∧
    (⟨"foobar", "1.0", "foobar-1.0", "", [], [], "",
        "http://host/${P}.tar.gz"⟩ : PackageVars).my_p_raw = "" ∧
    (⟨"foobar", "1.0", "foobar-1.0", "", [], [], "",
        "http://host/${P}.tar.gz"⟩ : PackageVars).src_uri =
      pyReplace (pyReplace (sanitize_uri "http://host/foobar-1.0.tar.gz")
        (get_filename (sanitize_uri "http://host/foobar-1.0.tar.gz")) "${MY_P}")
        "${MY_P}" "${P}" :=
  c7_plain_p_clears_name_rules isvalidatom "http://host/foobar-1.0.tar.gz" "foobar" "1.0"
    "" "" [] [] _ rfl (by decide)

/-- A digit is not one of the separator characters. -/
theorem isSep_false_of_isDigit (c : Char) (h : c.isDigit = true) : isSep c = false := by
  by_cases h1 : c = '.'
  · subst h1; exact absurd h (by decide)
  by_cases h2 : c = '_'
  · subst h2; exact absurd h (by decide)
  by_cases h3 : c = '-'
  · subst h3; exact absurd h (by decide)
  unfold isSep
  rw [show (c == '.') = false from beq_eq_false_iff_ne.mpr h1,
    show (c == '_') = false from beq_eq_false_iff_ne.mpr h2,
    show (c == '-') = false from beq_eq_false_iff_ne.mpr h3]
  rfl

/-- A character whose lower-case form is not a separator is itself not a
separator (the separators are fixed points of `Char.toLower`). -/
theorem isSep_false_of_toLower {c y : Char} (h : c.toLower = y) (hy : isSep y = false) :
    isSep c = false := by
  by_cases h1 : c = '.'
  · subst h1
    rw [show ('.' : Char).toLower = '.' from by decide] at h
    rw [← h] at hy
    exact absurd hy (by decide)
  by_cases h2 : c = '_'
  · subst h2
    rw [show ('_' : Char).toLower = '_' from by decide] at h
    rw [← h] at hy
    exact absurd hy (by decide)
  by_cases h3 : c = '-'
  · subst h3
    rw [show ('-' : Char).toLower = '-' from by decide] at h
    rw [← h] at hy
    exact absurd hy (by decide)
  unfold isSep
  rw [show (c == '.') = false from beq_eq_false_iff_ne.mpr h1,
    show (c == '_') = false from beq_eq_false_iff_ne.mpr h2,
    show (c == '-') = false from beq_eq_false_iff_ne.mpr h3]
  rfl

/-- Dropping a satisfied prefix continues into the tail. -/
theorem dropWhile_append_all {α} {p : α → Bool} (s t : List α) (h : s.all p = true) :
    (s ++ t).dropWhile p = t.dropWhile p := by
  induction s with
  | nil => rfl
  | cons a s ih =>
    simp only [List.all_cons, Bool.and_eq_true] at h
    rw [List.cons_append, List.dropWhile_cons]
    simp [h.1, ih h.2]

/-- A digit run passes `dropWhile isSep` unchanged. -/
theorem dropWhile_isSep_digits (d : List Char) (hd : d.all Char.isDigit = true) :
    d.dropWhile isSep = d := by
  cases d with
  | nil => rfl
  | cons a ds =>
    simp only [List.all_cons, Bool.and_eq_true] at hd
    rw [List.dropWhile_cons, isSep_false_of_isDigit a hd.1]
    simp

/-- Completeness of `sepsDigits`: a separator run followed by a digit run
always matches `[\._-]*[0-9]*$`. -/
theorem sepsDigits_some_of (s2 d : List Char) (hs : s2.all isSep = true)
    (hd : d.all Char.isDigit = true) : (sepsDigits (s2 ++ d)).isSome = true := by
  unfold sepsDigits
  rw [dropWhile_append_all s2 d hs, dropWhile_isSep_digits d hd]
  simp [hd]

/-- Soundness of `sepsDigits`: a match splits the input into its
separator run and an all-digit remainder. -/
theorem sepsDigits_sound {t s d : List Char} (h : sepsDigits t = some (s, d)) :
    t = s ++ d ∧ s.all isSep = true ∧ d.all Char.isDigit = true := by
  unfold sepsDigits at h
  by_cases hd : (t.dropWhile isSep).all Char.isDigit = true
  · rw [if_pos hd] at h
    rw [Option.some.injEq, Prod.mk.injEq] at h
    obtain ⟨h1, h2⟩ := h
    subst h1
    subst h2
    exact ⟨(List.takeWhile_append_dropWhile isSep t).symm, List.all_takeWhile, hd⟩
  · rw [if_neg hd] at h
    cases h

/-- A singleton lower-cased marker comes from a singleton slice. -/
theorem map_toLower_singleton {m : List Char} {y : Char} (h : lowerL m = [y]) :
    ∃ x, m = [x] ∧ x.toLower = y := by
  cases m with
  | nil => simp [lowerL] at h
  | cons a as =>
    cases as with
    | nil =>
      simp [lowerL] at h
      exact ⟨a, rfl, h⟩
    | cons b bs => simp [lowerL] at h

/-- The head of a slice whose lower-case form is known. -/
theorem lowerL_head {m : List Char} {y : Char} {ys : List Char} (h : lowerL m = y :: ys) :
    ∃ x xs, m = x :: xs ∧ x.toLower = y := by
  cases m with
  | nil => simp [lowerL] at h
  | cons a as =>
    simp only [lowerL, List.map_cons, List.cons.injEq] at h
    exact ⟨a, as, rfl, h.1⟩

/-- `lowerL` preserves length. -/
theorem lowerL_length (m : List Char) : (lowerL m).length = m.length := by
  simp [lowerL]

/-- A slice equal (case-insensitively) to the word, followed by anything,
passes the `re.I` literal test. -/
theorem ciStarts_of_append {m w rest : List Char} (hm : lowerL m = w) :
    ciStarts (m ++ rest) w = true := by
  unfold ciStarts
  have hlen : w.length = m.length := by rw [← hm, lowerL_length]
  rw [hlen, List.take_left, hm]
  exact beq_self_eq_true w

/-- Completeness of one marker alternative of the revision regex. -/
theorem tryRevWord_some (w m s2 d : List Char) (hm : lowerL m = w)
    (hs : s2.all isSep = true) (hd : d.all Char.isDigit = true) :
    (tryRevWord w (m ++ (s2 ++ d))).isSome = true := by
  unfold tryRevWord
  rw [if_pos (ciStarts_of_append hm)]
  have hlen : w.length = m.length := by rw [← hm, lowerL_length]
  rw [hlen, List.drop_left]
  obtain ⟨⟨a, b⟩, hab⟩ := Option.isSome_iff_exists.mp (sepsDigits_some_of s2 d hs hd)
  rw [hab]
  rfl

/-- Soundness of one marker alternative of the revision regex. -/
theorem tryRevWord_sound {w rest g2 d : List Char} (h : tryRevWord w rest = some (g2, d)) :
    ∃ m s2, g2 = m ++ s2 ∧ lowerL m = w ∧ s2.all isSep = true ∧ d.all Char.isDigit = true ∧
      rest = m ++ (s2 ++ d) := by
  unfold tryRevWord at h
  by_cases hc : ciStarts rest w = true
  · rw [if_pos hc] at h
    cases hsd : sepsDigits (rest.drop w.length) with
    | none => rw [hsd] at h; cases h
    | some g =>
      obtain ⟨s2', d'⟩ := g
      rw [hsd] at h
      rw [Option.some.injEq, Prod.mk.injEq] at h
      obtain ⟨h1, h2⟩ := h
      subst h1
      subst h2
      obtain ⟨ht, hs, hd⟩ := sepsDigits_sound hsd
      refine ⟨rest.take w.length, s2', rfl, ?_, hs, hd, ?_⟩
      · unfold ciStarts at hc
        exact beq_iff_eq.mp hc
      · conv_lhs => rw [← List.take_append_drop w.length rest, ht]
  · rw [if_neg hc] at h
    cases h

/-- Soundness helper for one branch of `revTail`. -/
theorem revTail_sound_aux {t a b w : List Char}
    (h1 : tryRevWord w (t.dropWhile isSep) = some (a, b)) :
    ∃ s1 m s2, t = s1 ++ (m ++ (s2 ++ b)) ∧ s1.all isSep = true ∧ lowerL m = w ∧
      s2.all isSep = true ∧ b.all Char.isDigit = true := by
  obtain ⟨m, s2, hg2, hm, hs2, hd, hrest⟩ := tryRevWord_sound h1
  refine ⟨t.takeWhile isSep, m, s2, ?_, List.all_takeWhile, hm, hs2, hd⟩
  conv_lhs => rw [← List.takeWhile_append_dropWhile isSep t, hrest]

/-- Soundness of `revTail`: a match decomposes the suffix as separators,
a marker, separators, digits. -/
theorem revTail_sound {t g2 g3 : List Char} (h : revTail t = some (g2, g3)) :
    ∃ s1 m s2, t = s1 ++ (m ++ (s2 ++ g3)) ∧ s1.all isSep = true ∧
      (lowerL m = ['r'] ∨ lowerL m = ['p', 'a', 't', 'c', 'h'] ∨ lowerL m = ['p']) ∧
      s2.all isSep = true ∧ g3.all Char.isDigit = true := by
  unfold revTail at h
  cases h1 : tryRevWord ['r'] (t.dropWhile isSep) with
  | some g =>
    obtain ⟨a, b⟩ := g
    simp only [h1] at h
    rw [Option.some.injEq, Prod.mk.injEq] at h
    obtain ⟨s1', m', s2', hdec, hs1, hm, hs2, hd⟩ := revTail_sound_aux h1
    rw [h.2] at hdec hd
    exact ⟨s1', m', s2', hdec, hs1, Or.inl hm, hs2, hd⟩
  | none =>
    simp only [h1] at h
    cases h2 : tryRevWord ['p', 'a', 't', 'c', 'h'] (t.dropWhile isSep) with
    | some g =>
      obtain ⟨a, b⟩ := g
      simp only [h2] at h
      rw [Option.some.injEq, Prod.mk.injEq] at h
      obtain ⟨s1', m', s2', hdec, hs1, hm, hs2, hd⟩ := revTail_sound_aux h2
      rw [h.2] at hdec hd
      exact ⟨s1', m', s2', hdec, hs1, Or.inr (Or.inl hm), hs2, hd⟩
    | none =>
      simp only [h2] at h
      cases h3 : tryRevWord ['p'] (t.dropWhile isSep) with
      | some g =>
        obtain ⟨a, b⟩ := g
        simp only [h3] at h
        rw [Option.some.injEq, Prod.mk.injEq] at h
        obtain ⟨s1', m', s2', hdec, hs1, hm, hs2, hd⟩ := revTail_sound_aux h3
        rw [h.2] at hdec hd
        exact ⟨s1', m', s2', hdec, hs1, Or.inr (Or.inr hm), hs2, hd⟩
      | none =>
        simp only [h3] at h
        cases h

/-- Completeness of `revTail`: any separators-marker-separators-digits
suffix is matched. -/
theorem revTail_some (s1 m s2 d : List Char) (hs1 : s1.all isSep = true)
    (hm : lowerL m = ['r'] ∨ lowerL m = ['p', 'a', 't', 'c', 'h'] ∨ lowerL m = ['p'])
    (hs : s2.all isSep = true) (hd : d.all Char.isDigit = true) :
    (revTail (s1 ++ (m ++ (s2 ++ d)))).isSome = true := by
  have hmhead : ∃ x xs, m = x :: xs ∧ isSep x = false := by
    rcases hm with h | h | h
    · obtain ⟨x, hx, hxl⟩ := map_toLower_singleton h
      exact ⟨x, [], hx, isSep_false_of_toLower hxl (by decide)⟩
    · obtain ⟨x, xs, hx, hxl⟩ := lowerL_head h
      exact ⟨x, xs, hx, isSep_false_of_toLower hxl (by decide)⟩
    · obtain ⟨x, hx, hxl⟩ := map_toLower_singleton h
      exact ⟨x, [], hx, isSep_false_of_toLower hxl (by decide)⟩
  obtain ⟨x, xs, hmx, hxsep⟩ := hmhead
  have hrest : (s1 ++ (m ++ (s2 ++ d))).dropWhile isSep = m ++ (s2 ++ d) := by
    rw [dropWhile_append_all s1 _ hs1, hmx, List.cons_append, List.dropWhile_cons]
    simp [hxsep]
  unfold revTail
  rw [hrest]
  cases h1 : tryRevWord ['r'] (m ++ (s2 ++ d)) with
  | some g =>
    obtain ⟨a, b⟩ := g
    simp [h1]
  | none =>
    cases h2 : tryRevWord ['p', 'a', 't', 'c', 'h'] (m ++ (s2 ++ d)) with
    | some g =>
      obtain ⟨a, b⟩ := g
      simp [h1, h2]
    | none =>
      cases h3 : tryRevWord ['p'] (m ++ (s2 ++ d)) with
      | some g =>
        obtain ⟨a, b⟩ := g
        simp [h1, h2, h3]
      | none =>
        exfalso
        rcases hm with h | h | h
        · have hw := tryRevWord_some ['r'] m s2 d h hs hd
          rw [h1] at hw
          exact Bool.noConfusion hw
        · have hw := tryRevWord_some ['p', 'a', 't', 'c', 'h'] m s2 d h hs hd
          rw [h2] at hw
          exact Bool.noConfusion hw
        · have hw := tryRevWord_some ['p'] m s2 d h hs hd
          rw [h3] at hw
          exact Bool.noConfusion hw

/-- A lazy search that succeeds on a suffix still succeeds with one more
leading character (the engine just starts group 1 earlier). -/
theorem lazySearch_cons_isSome (tl : List Char → Option (List Char × List Char)) (c : Char)
    (cs : List Char) (h : (lazySearch tl cs).isSome = true) :
    (lazySearch tl (c :: cs)).isSome = true := by
  obtain ⟨⟨g1, g2, g3⟩, hg⟩ := Option.isSome_iff_exists.mp h
  cases htl : tl (c :: cs) with
  | some g =>
    obtain ⟨a, b⟩ := g
    simp [lazySearch, htl]
  | none => simp [lazySearch, htl, hg]

/-- A lazy search succeeds whenever the tail matcher succeeds at the
current position. -/
theorem lazySearch_at_head (tl : List Char → Option (List Char × List Char))
    (rest : List Char) (h : (tl rest).isSome = true) :
    (lazySearch tl rest).isSome = true := by
  obtain ⟨⟨a, b⟩, hab⟩ := Option.isSome_iff_exists.mp h
  cases rest with
  | nil => simp [lazySearch, hab]
  | cons c cs => simp [lazySearch, hab]

/-- Completeness of the lazy search: if the tail matcher succeeds at some
position, the search over the whole string succeeds. -/
theorem lazySearch_append (tl : List Char → Option (List Char × List Char))
    (g1 rest : List Char) (h : (tl rest).isSome = true) :
    (lazySearch tl (g1 ++ rest)).isSome = true := by
  induction g1 with
  | nil => exact lazySearch_at_head tl rest h
  | cons c cs ih => exact lazySearch_cons_isSome tl c (cs ++ rest) ih

/-- Soundness of the lazy search: a match splits the input at the start
position of group 2, where the tail matcher succeeds. -/
theorem lazySearch_sound {tl : List Char → Option (List Char × List Char)} :
    ∀ {t g1 g2 g3 : List Char}, lazySearch tl t = some (g1, g2, g3) →
      ∃ rest, t = g1 ++ rest ∧ tl rest = some (g2, g3) := by
  intro t
  induction t with
  | nil =>
    intro g1 g2 g3 h
    cases htl : tl [] with
    | some g =>
      obtain ⟨a, b⟩ := g
      simp only [lazySearch, htl] at h
      rw [Option.some.injEq, Prod.mk.injEq, Prod.mk.injEq] at h
      obtain ⟨h1, h2, h3⟩ := h
      subst h1; subst h2; subst h3
      exact ⟨[], rfl, htl⟩
    | none => simp [lazySearch, htl] at h
  | cons c cs ih =>
    intro g1 g2 g3 h
    cases htl : tl (c :: cs) with
    | some g =>
      obtain ⟨a, b⟩ := g
      simp only [lazySearch, htl] at h
      rw [Option.some.injEq, Prod.mk.injEq, Prod.mk.injEq] at h
      obtain ⟨h1, h2, h3⟩ := h
      subst h1; subst h2; subst h3
      exact ⟨c :: cs, rfl, htl⟩
    | none =>
      cases hls : lazySearch tl cs with
      | none => simp [lazySearch, htl, hls] at h
      | some g =>
        obtain ⟨g1', g2', g3'⟩ := g
        simp only [lazySearch, htl, hls] at h
        rw [Option.some.injEq, Prod.mk.injEq, Prod.mk.injEq] at h
        obtain ⟨h1, h2, h3⟩ := h
        obtain ⟨rest, hr1, hr2⟩ := ih hls
        subst h2; subst h3
        refine ⟨rest, ?_, hr2⟩
        rw [← h1, hr1]
        rfl

/-- C5 amended: the revision-suffix extraction regex fires exactly when
the version decomposes as anything, then optional separators, an
`r`/`patch`/`p` marker (case-insensitive), optional separators, and a
POSSIBLY EMPTY digit run reaching the end of the string: the claim's
pattern with `([0-9]*)`, not `([0-9]+)`. -/
theorem c5_revision_extraction_fires_iff (v : String) :
    (revSearch v.data).isSome = true ↔ RevDecomp v.data := by
  constructor
  · intro h
    obtain ⟨⟨g1, g2, g3⟩, hg⟩ := Option.isSome_iff_exists.mp h
    obtain ⟨rest, hteq, htl⟩ := lazySearch_sound hg
    obtain ⟨s1, m, s2, hrest, hs1, hm, hs2, hd⟩ := revTail_sound htl
    refine ⟨g1, s1, m, s2, g3, ?_, hs1, hs2, hm, hd⟩
    rw [hteq, hrest]
    simp [List.append_assoc]
  · rintro ⟨g1, s1, m, s2, d, hteq, hs1, hs2, hm, hd⟩
    rw [hteq]
    have hassoc : g1 ++ s1 ++ m ++ s2 ++ d = g1 ++ (s1 ++ (m ++ (s2 ++ d))) := by
      simp [List.append_assoc]
    rw [hassoc]
    exact lazySearch_append revTail g1 (s1 ++ (m ++ (s2 ++ d)))
      (revTail_some s1 m s2 d hs1 hm hs2 hd)

/-- Witness for C5 amended: applying the characterization at `1.0-r`
(where the matcher fires with an empty digit group) produces the
decomposition. -/
theorem c5_revision_extraction_fires_iff_witness : RevDecomp "1.0-r".data :=
  (c5_revision_extraction_fires_iff "1.0-r").mp (by decide)
